import Mathlib

/-!
Shallow embedding of `nrekit/framework.py` (Neural-Snowball repository).

The file models the two classes of `framework.py`:

* `Model` — only its default accuracy computation `__accuracy__` is numerically
  meaningful here; the forward passes are abstract (they are `NotImplementedError`
  stubs in the source) and are represented by streams of per-iteration loss and
  accuracy values.
* `Framework` — the checkpoint load/save helpers, the training loop `train`,
  and the evaluation loop `eval`.

Modelling conventions:

* Python floats are modelled by `ℚ` (the code only adds, divides and compares
  accuracy/loss scalars; no claim concerns float rounding).
* A torch checkpoint dict is `CkptDict`: the source only ever accesses the keys
  `state_dict` and `iter`, so the dict is a record of two `Option` fields, with
  `none` meaning the key is absent (a lookup of an absent key is a `KeyError`).
* The filesystem is `Fs P`, a map from paths to the checkpoint stored there;
  `torch.save` is a pointwise update and `os.path.isfile` is definedness.
* The model and the data loaders are opaque, so the values the trainer reads
  from them are inputs of the embedding: `lossAt it` / `accAt it` are the loss
  and accuracy read after the forward pass of training iteration `it`
  (framework.py lines 144-145), `paramAt it` is the parameter state after the
  optimizer step of iteration `it`, `evalAcc k` is the accuracy returned by the
  k-th in-training validation evaluation (line 162), and in `Framework.eval`
  the per-episode accuracies of the validation/test loaders are the streams
  `valAccs` / `testAccs` (line 206-207).
* Fallible operations return `Except String`; the strings are the messages the
  Python exceptions carry (without quote characters).
-/

/-- Torch checkpoint bundle as used by framework.py: only the dict keys
`state_dict` and `iter` are ever written or read, so the dict is modelled as a
record of the two optional entries. `none` models an absent key. -/
structure CkptDict (P : Type) where
  state_dict : Option P
  iter : Option Nat
deriving DecidableEq

/-- Filesystem abstraction: what checkpoint dict, if any, is stored at a path. -/
def Fs (P : Type) : Type := String → Option (CkptDict P)

/-- framework.py line 169: the dict that `torch.save` persists at a best
checkpoint is literally a dict with the single key `state_dict`; no `iter`
entry is written. -/
def saveDict {P : Type} (p : P) : CkptDict P :=
  { state_dict := some p, iter := none }

/-- Effect of `torch.save({state_dict: ...}, save_path)` on the filesystem
(framework.py line 169): whole-file overwrite at `path`. -/
def saveCheckpoint {P : Type} (fs : Fs P) (path : String) (p : P) : Fs P :=
  fun q => if q = path then some (saveDict p) else fs q

/-- Framework.__load_model__ (framework.py lines 61-71): if the file exists,
return the deserialized checkpoint dict, else raise
`Exception("No checkpoint found at ...")`. -/
def loadModel {P : Type} (fs : Fs P) (ckpt : String) : Except String (CkptDict P) :=
  match fs ckpt with
  | some c => Except.ok c
  | none => Except.error ("No checkpoint found at " ++ ckpt)

/-- Model.__accuracy__ (framework.py line 41):
`torch.mean((pred.view(-1) == label.view(-1)).type(torch.FloatTensor))` —
the elementwise-equality indicator vector of the two flattened sequences,
averaged. On equal-length inputs the comparison vector is the `zip`. -/
def modelAccuracy {α : Type} [DecidableEq α] (pred label : List α) : ℚ :=
  (((pred.zip label).map (fun pr => if pr.1 = pr.2 then (1 : ℚ) else 0)).sum) /
    (((pred.zip label).length : ℕ) : ℚ)

/-- Number of positions where prediction equals label (the count the spec
describes the accuracy as a fraction of). -/
def matchCount {α : Type} [DecidableEq α] (pred label : List α) : ℕ :=
  ((pred.zip label).filter (fun pr => decide (pr.1 = pr.2))).length

/-- Which data loader an evaluation run drew its episodes from
(framework.py lines 194-199). -/
inductive WhichLoader : Type
  | valLoader : WhichLoader
  | testLoader : WhichLoader
deriving DecidableEq

/-- Observable outcome of a successful `Framework.eval` call: which loader the
episodes came from, which parameters (if any) were loaded from a checkpoint,
and the returned mean accuracy. -/
structure EvalResult (P : Type) where
  loader : WhichLoader
  loadedParams : Option P
  acc : ℚ
deriving DecidableEq

/-- Accumulated `iter_right` after `n` passes of the eval loop
(framework.py line 207): per-episode accuracies summed in loop order. -/
def evalRight (accs : ℕ → ℚ) : ℕ → ℚ
  | 0 => 0
  | n + 1 => evalRight accs n + accs n

/-- Body of Framework.eval after the dataset has been selected
(framework.py lines 201-213): run `evalIter` episodes, accumulating
`iter_right` and `iter_sample`, then return `iter_right / iter_sample`.
In Python the final statement `iter_right / iter_sample` raises
`ZeroDivisionError` when `iter_sample` is `0.0`. -/
def evalLoop {P : Type} (L : WhichLoader) (lp : Option P) (accs : ℕ → ℚ)
    (evalIter : ℕ) : Except String (EvalResult P) :=
  let sample : ℚ := (evalIter : ℚ)
  if sample = 0 then
    Except.error "ZeroDivisionError: float division by zero"
  else
    Except.ok { loader := L, loadedParams := lp, acc := evalRight accs evalIter / sample }

namespace Framework

/-- Framework.eval (framework.py lines 177-213): with `ckpt = None` evaluate
the current in-memory parameters on the validation loader; with a checkpoint
path, load it via `__load_model__` (propagating its failure), read its
`state_dict` key (a `KeyError` if absent), and evaluate on the test loader. -/
def eval {P : Type} (fs : Fs P) (valAccs testAccs : ℕ → ℚ) (evalIter : ℕ)
    (ckpt : Option String) : Except String (EvalResult P) :=
  match ckpt with
  | none => evalLoop WhichLoader.valLoader none valAccs evalIter
  | some path =>
    match loadModel fs path with
    | Except.error e => Except.error e
    | Except.ok ck =>
      match ck.state_dict with
      | none => Except.error "KeyError: state_dict"
      | some p => evalLoop WhichLoader.testLoader (some p) testAccs evalIter

end Framework

/-- Start-of-training resume logic (framework.py lines 123-128): with a
pretrained checkpoint path, load it (propagating the load failure), read
`checkpoint[state_dict]` into the model and set
`start_iter = checkpoint[iter] + 1`; with no path, `start_iter = 0`.
Returns the loaded parameters (if any) and the starting iteration. -/
def trainStart {P : Type} (fs : Fs P) (pretrain : Option String) :
    Except String (Option P × ℕ) :=
  match pretrain with
  | none => Except.ok (none, 0)
  | some path =>
    match loadModel fs path with
    | Except.error e => Except.error e
    | Except.ok ck =>
      match ck.state_dict with
      | none => Except.error "KeyError: state_dict"
      | some p =>
        match ck.iter with
        | none => Except.error "KeyError: iter"
        | some i => Except.ok (some p, i + 1)

/-- Mutable state of the training loop of Framework.train
(framework.py lines 135-170): the running accumulators `iter_loss`,
`iter_right`, `iter_sample`, the best validation accuracy `best_acc`, and the
filesystem (which checkpoint writes mutate). Two ghost histories are kept for
specification purposes only: `evalLog` records, per validation evaluation, the
iteration at which it ran, the accuracy it returned, and whether a checkpoint
was written; `its` records the iteration indices processed, in order. -/
structure LoopState (P : Type) where
  iterLoss : ℚ
  iterRight : ℚ
  iterSample : ℚ
  bestAcc : ℚ
  evalLog : List (ℕ × ℚ × Bool)
  fs : Fs P
  its : List ℕ

/-- State just before the first training iteration (framework.py lines
135-139): `best_acc = 0` and zeroed accumulators. -/
def initState {P : Type} (fs0 : Fs P) : LoopState P :=
  { iterLoss := 0, iterRight := 0, iterSample := 0, bestAcc := 0,
    evalLog := [], fs := fs0, its := [] }

/-- One iteration `it` of the training loop body (framework.py lines 141-170),
assuming `valStep` is at least 1 (with `val_step = 0` the Python `%` raises).
In order: forward/backward/optimizer step (abstract; `lossAt it` and `accAt it`
are the loss and accuracy the trainer reads, `paramAt it` the parameter state
after the step), the accumulation into `iter_loss`, `iter_right`,
`iter_sample` and the progress display; then the reset of the accumulators when
`it % val_step == 0` (line 156); then, when `(it + 1) % val_step == 0`
(line 161), a validation evaluation returning `evalAcc k` for the k-th such
evaluation, and a checkpoint write to `savePath` exactly when the returned
accuracy strictly exceeds `best_acc` (lines 164-170). -/
def trainStep {P : Type} (paramAt : ℕ → P) (lossAt accAt evalAcc : ℕ → ℚ)
    (valStep : ℕ) (savePath : String) (it : ℕ) (s : LoopState P) : LoopState P :=
  let s1 : LoopState P :=
    { s with
      iterLoss := s.iterLoss + lossAt it
      iterRight := s.iterRight + accAt it
      iterSample := s.iterSample + 1
      its := s.its ++ [it] }
  let s2 : LoopState P :=
    if it % valStep = 0 then
      { s1 with iterLoss := 0, iterRight := 0, iterSample := 0 }
    else s1
  if (it + 1) % valStep = 0 then
    let a := evalAcc s2.evalLog.length
    if s2.bestAcc < a then
      { s2 with
        bestAcc := a
        evalLog := s2.evalLog ++ [(it, a, true)]
        fs := saveCheckpoint s2.fs savePath (paramAt it) }
    else
      { s2 with evalLog := s2.evalLog ++ [(it, a, false)] }
  else s2

/-- State after the first `n` iterations of the training loop, which processes
iterations `startIter, startIter + 1, ...` in order
(framework.py line 140: `for it in range(start_iter, start_iter + train_iter)`). -/
def trainLoop {P : Type} (paramAt : ℕ → P) (lossAt accAt evalAcc : ℕ → ℚ)
    (valStep startIter : ℕ) (fs0 : Fs P) (savePath : String) : ℕ → LoopState P
  | 0 => initState fs0
  | n + 1 =>
    trainStep paramAt lossAt accAt evalAcc valStep savePath (startIter + n)
      (trainLoop paramAt lossAt accAt evalAcc valStep startIter fs0 savePath n)

/-- Windowed average accuracy displayed at the n-th loop step
(framework.py line 153): `iter_right / iter_sample` read right after the
accumulation of that step, before any reset. -/
def displayedAcc {P : Type} (paramAt : ℕ → P) (lossAt accAt evalAcc : ℕ → ℚ)
    (valStep startIter : ℕ) (fs0 : Fs P) (savePath : String) (n : ℕ) : ℚ :=
  let s := trainLoop paramAt lossAt accAt evalAcc valStep startIter fs0 savePath n
  (s.iterRight + accAt (startIter + n)) / (s.iterSample + 1)

/-- Per-evaluation write flags of a training run, in evaluation order. -/
def writeFlags {P : Type} (s : LoopState P) : List Bool :=
  s.evalLog.map (fun e => e.2.2)

/-- Number of checkpoint writes performed during a training run. -/
def writeCount {P : Type} (s : LoopState P) : ℕ :=
  (writeFlags s).count true

namespace Framework

/-- Framework.train (framework.py lines 82-175) end to end: resume from the
optional pretrained checkpoint (lines 123-128), run the training loop
(lines 140-170), then run the final test evaluation loading the best
checkpoint at `savePath` with `test_iter` episodes (line 174) and return its
result. `savePath` stands for `os.path.join(ckpt_dir, model_name + ".pth.tar")`,
which is the same string in the in-loop writes and in the final evaluation. -/
def train {P : Type} (paramAt : ℕ → P) (lossAt accAt evalAcc testAccs : ℕ → ℚ)
    (valStep trainIter testIter : ℕ) (fs0 : Fs P) (savePath : String)
    (pretrain : Option String) : Except String (EvalResult P) :=
  match trainStart fs0 pretrain with
  | Except.error e => Except.error e
  | Except.ok (_, startIter) =>
    let final := trainLoop paramAt lossAt accAt evalAcc valStep startIter fs0 savePath trainIter
    Framework.eval final.fs (fun _ => 0) testAccs testIter (some savePath)

end Framework

/-- Running maximum the trainer's `best_acc` follows: `bestAfter a k` is
`best_acc` just before the k-th validation evaluation (0 initially, updated to
the returned accuracy exactly on strict improvement, framework.py
lines 135, 164, 170). -/
def bestAfter (a : ℕ → ℚ) : ℕ → ℚ
  | 0 => 0
  | k + 1 => if bestAfter a k < a k then a k else bestAfter a k

/-! ### Concrete instances used by the scenario theorems and witnesses -/

/-- Empty filesystem over natural-number parameter states. -/
def emptyFsN : Fs ℕ := fun _ => none

/-- C2 scenario: fresh run with `train_iter = 10`, `val_step = 5`, validation
accuracies 0.6 then 0.8 (losses, training accuracies and parameter states are
irrelevant to the write pattern and set to 0). -/
def scenarioRun : LoopState ℕ :=
  trainLoop (fun _ => 0) (fun _ => 0) (fun _ => 0)
    (fun k => if k = 0 then 3/5 else 4/5) 5 0 emptyFsN "m" 10

/-- Run whose single validation evaluation returns accuracy 0
(`train_iter = val_step = 1`). -/
def zeroAccRun : LoopState ℕ :=
  trainLoop (fun _ => 0) (fun _ => 0) (fun _ => 0) (fun _ => 0) 1 0 emptyFsN "m" 1

/-- Fresh run with `val_step = 2` stopped after 2 iterations, i.e. at the
start of the second validation window. -/
def offsetRun : LoopState ℕ :=
  trainLoop (fun _ => 0) (fun _ => 0) (fun _ => 0) (fun _ => 0) 2 0 emptyFsN "m" 2

/-- Checkpoint dict holding parameter state 7 saved at iteration 3. -/
def ckResume : CkptDict ℕ := { state_dict := some 7, iter := some 3 }

/-- Filesystem with `ckResume` stored at the standard checkpoint path. -/
def fsResume : Fs ℕ :=
  fun q => if q = "./checkpoint/m.pth.tar" then some ckResume else none

/-- Checkpoint dict holding only a parameter state (no iteration), as the
trainer itself writes. -/
def ckParamsOnly : CkptDict ℕ := { state_dict := some 5, iter := none }

/-- Filesystem with `ckParamsOnly` stored at path `t`. -/
def fsParamsOnly : Fs ℕ := fun q => if q = "t" then some ckParamsOnly else none

/-! ### Helper lemmas -/

lemma evalRight_eq_sum (accs : ℕ → ℚ) (n : ℕ) :
    evalRight accs n = ∑ j in Finset.range n, accs j := by
  induction n with
  | zero => rfl
  | succ n ih => rw [evalRight, ih, Finset.sum_range_succ]

lemma mean_mem_unit (f : ℕ → ℚ) (n : ℕ) (hn : 1 ≤ n)
    (hb : ∀ j < n, 0 ≤ f j ∧ f j ≤ 1) :
    0 ≤ (∑ j in Finset.range n, f j) / (n : ℚ) ∧
      (∑ j in Finset.range n, f j) / (n : ℚ) ≤ 1 := by
  have hn0 : (0 : ℚ) < (n : ℚ) := by exact_mod_cast hn
  constructor
  · exact div_nonneg
      (Finset.sum_nonneg fun j hj => (hb j (Finset.mem_range.mp hj)).1) (le_of_lt hn0)
  · rw [div_le_one hn0]
    calc ∑ j in Finset.range n, f j
        ≤ ∑ _j in Finset.range n, (1 : ℚ) :=
          Finset.sum_le_sum fun j hj => (hb j (Finset.mem_range.mp hj)).2
      _ = (n : ℚ) := by simp

lemma indicator_sum {α : Type} [DecidableEq α] (l : List (α × α)) :
    (l.map (fun pr => if pr.1 = pr.2 then (1 : ℚ) else 0)).sum
      = (((l.filter (fun pr => decide (pr.1 = pr.2))).length : ℕ) : ℚ) := by
  induction l with
  | nil => simp
  | cons x xs ih =>
    by_cases h : x.1 = x.2
    · simp [h, ih]
      ring
    · simp [h, ih]

lemma bestAfter_nonneg (a : ℕ → ℚ) (k : ℕ) : 0 ≤ bestAfter a k := by
  induction k with
  | zero => simp [bestAfter]
  | succ k ih =>
    rw [bestAfter]
    split
    · exact le_of_lt (lt_of_le_of_lt ih (by assumption))
    · exact ih

lemma bestAfter_lt_iff (a : ℕ → ℚ) (k : ℕ) (x : ℚ) :
    bestAfter a k < x ↔ 0 < x ∧ ∀ j < k, a j < x := by
  induction k with
  | zero => simp [bestAfter]
  | succ k ih =>
    have step : bestAfter a (k + 1) < x ↔ bestAfter a k < x ∧ a k < x := by
      rw [bestAfter]
      by_cases h : bestAfter a k < a k
      · rw [if_pos h]
        exact ⟨fun hak => ⟨lt_trans h hak, hak⟩, fun hp => hp.2⟩
      · rw [if_neg h]
        push_neg at h
        exact ⟨fun hb => ⟨hb, lt_of_le_of_lt h hb⟩, fun hp => hp.1⟩
    rw [step, ih]
    constructor
    · rintro ⟨⟨h0, hall⟩, hk⟩
      refine ⟨h0, fun j hj => ?_⟩
      rcases Nat.lt_succ_iff_lt_or_eq.mp hj with h' | h'
      · exact hall j h'
      · subst h'; exact hk
    · rintro ⟨h0, hall⟩
      exact ⟨⟨h0, fun j hj => hall j (Nat.lt_succ_of_lt hj)⟩, hall k (Nat.lt_succ_self k)⟩

lemma mod_pred (vs n : ℕ) (h : n % vs ≠ 0) : n % vs = (n - 1) % vs + 1 := by
  rcases Nat.eq_zero_or_pos vs with h0 | hv
  · subst h0
    simp only [Nat.mod_zero] at h ⊢
    omega
  · obtain ⟨q, r, hqr, hrlt, hreq⟩ : ∃ q r, vs * q + r = n ∧ r < vs ∧ n % vs = r :=
      ⟨n / vs, n % vs, Nat.div_add_mod n vs, Nat.mod_lt n hv, rfl⟩
    rw [hreq] at h ⊢
    have hr1 : 1 ≤ r := Nat.one_le_iff_ne_zero.mpr h
    have key : n - 1 = vs * q + (r - 1) := by omega
    rw [key, Nat.mul_add_mod, Nat.mod_eq_of_lt (by omega)]
    omega

lemma trainStep_its {P : Type} (paramAt : ℕ → P) (lossAt accAt evalAcc : ℕ → ℚ)
    (vs : ℕ) (sp : String) (it : ℕ) (s : LoopState P) :
    (trainStep paramAt lossAt accAt evalAcc vs sp it s).its = s.its ++ [it] := by
  unfold trainStep
  by_cases h0 : it % vs = 0 <;> by_cases h1 : (it + 1) % vs = 0 <;>
    simp only [h0, h1, if_true, if_false, ite_true, ite_false] <;>
      first
        | rfl
        | (split <;> rfl)

lemma trainStep_noval {P : Type} (paramAt : ℕ → P) (lossAt accAt evalAcc : ℕ → ℚ)
    (vs : ℕ) (sp : String) (it : ℕ) (s : LoopState P) (h : (it + 1) % vs ≠ 0) :
    (trainStep paramAt lossAt accAt evalAcc vs sp it s).evalLog = s.evalLog ∧
    (trainStep paramAt lossAt accAt evalAcc vs sp it s).bestAcc = s.bestAcc ∧
    (trainStep paramAt lossAt accAt evalAcc vs sp it s).fs = s.fs := by
  unfold trainStep
  by_cases h0 : it % vs = 0 <;> simp [h0, h]

lemma trainStep_val {P : Type} (paramAt : ℕ → P) (lossAt accAt evalAcc : ℕ → ℚ)
    (vs : ℕ) (sp : String) (it : ℕ) (s : LoopState P) (h : (it + 1) % vs = 0) :
    (trainStep paramAt lossAt accAt evalAcc vs sp it s).evalLog
      = s.evalLog ++ [(it, evalAcc s.evalLog.length,
          decide (s.bestAcc < evalAcc s.evalLog.length))] ∧
    (trainStep paramAt lossAt accAt evalAcc vs sp it s).bestAcc
      = (if s.bestAcc < evalAcc s.evalLog.length
          then evalAcc s.evalLog.length else s.bestAcc) ∧
    (trainStep paramAt lossAt accAt evalAcc vs sp it s).fs
      = (if s.bestAcc < evalAcc s.evalLog.length
          then saveCheckpoint s.fs sp (paramAt it) else s.fs) := by
  unfold trainStep
  by_cases h0 : it % vs = 0 <;>
    by_cases hc : s.bestAcc < evalAcc s.evalLog.length <;>
      simp [h0, h, hc]

lemma trainStep_accs_reset {P : Type} (paramAt : ℕ → P) (lossAt accAt evalAcc : ℕ → ℚ)
    (vs : ℕ) (sp : String) (it : ℕ) (s : LoopState P) (h0 : it % vs = 0) :
    (trainStep paramAt lossAt accAt evalAcc vs sp it s).iterLoss = 0 ∧
    (trainStep paramAt lossAt accAt evalAcc vs sp it s).iterRight = 0 ∧
    (trainStep paramAt lossAt accAt evalAcc vs sp it s).iterSample = 0 := by
  unfold trainStep
  by_cases h1 : (it + 1) % vs = 0 <;>
    by_cases hc : s.bestAcc < evalAcc s.evalLog.length <;>
      simp [h0, h1, hc]

lemma trainStep_accs_noreset {P : Type} (paramAt : ℕ → P) (lossAt accAt evalAcc : ℕ → ℚ)
    (vs : ℕ) (sp : String) (it : ℕ) (s : LoopState P) (h0 : it % vs ≠ 0) :
    (trainStep paramAt lossAt accAt evalAcc vs sp it s).iterLoss = s.iterLoss + lossAt it ∧
    (trainStep paramAt lossAt accAt evalAcc vs sp it s).iterRight = s.iterRight + accAt it ∧
    (trainStep paramAt lossAt accAt evalAcc vs sp it s).iterSample = s.iterSample + 1 := by
  unfold trainStep
  by_cases h1 : (it + 1) % vs = 0 <;>
    by_cases hc : s.bestAcc < evalAcc s.evalLog.length <;>
      simp [h0, h1, hc]

lemma trainLoop_its {P : Type} (paramAt : ℕ → P) (lossAt accAt evalAcc : ℕ → ℚ)
    (vs s0 : ℕ) (fs0 : Fs P) (sp : String) (n : ℕ) :
    (trainLoop paramAt lossAt accAt evalAcc vs s0 fs0 sp n).its
      = (List.range n).map (fun j => s0 + j) := by
  induction n with
  | zero => rfl
  | succ n ih =>
    have hstep : trainLoop paramAt lossAt accAt evalAcc vs s0 fs0 sp (n + 1)
        = trainStep paramAt lossAt accAt evalAcc vs sp (s0 + n)
            (trainLoop paramAt lossAt accAt evalAcc vs s0 fs0 sp n) := rfl
    rw [hstep, trainStep_its, ih, List.range_succ, List.map_append]
    rfl

lemma trainLoop_evalLog {P : Type} (paramAt : ℕ → P) (lossAt accAt evalAcc : ℕ → ℚ)
    (vs : ℕ) (fs0 : Fs P) (sp : String) (n : ℕ) :
    (trainLoop paramAt lossAt accAt evalAcc vs 0 fs0 sp n).evalLog
        = (List.range (n / vs)).map
            (fun k => ((k + 1) * vs - 1, evalAcc k,
              decide (bestAfter evalAcc k < evalAcc k)))
      ∧ (trainLoop paramAt lossAt accAt evalAcc vs 0 fs0 sp n).bestAcc
        = bestAfter evalAcc (n / vs) := by
  induction n with
  | zero =>
    refine ⟨?_, ?_⟩ <;> simp [trainLoop, initState, Nat.zero_div, bestAfter]
  | succ n ih =>
    obtain ⟨ihL, ihB⟩ := ih
    have hstep : trainLoop paramAt lossAt accAt evalAcc vs 0 fs0 sp (n + 1)
        = trainStep paramAt lossAt accAt evalAcc vs sp n
            (trainLoop paramAt lossAt accAt evalAcc vs 0 fs0 sp n) := by
      simp only [trainLoop, Nat.zero_add]
    by_cases hd : vs ∣ (n + 1)
    · have hmod : (n + 1) % vs = 0 := by
        rcases hd with ⟨c, hc⟩
        rw [hc]
        exact Nat.mul_mod_right vs c
      have hdiv : (n + 1) / vs = n / vs + 1 := by
        rw [Nat.succ_div, if_pos hd]
      have hidx : n = (n / vs + 1) * vs - 1 := by
        have h1 : (n + 1) / vs * vs = n + 1 := Nat.div_mul_cancel hd
        rw [hdiv] at h1
        omega
      obtain ⟨hL, hB, _⟩ := trainStep_val paramAt lossAt accAt evalAcc vs sp n
        (trainLoop paramAt lossAt accAt evalAcc vs 0 fs0 sp n) hmod
      have hlen : (trainLoop paramAt lossAt accAt evalAcc vs 0 fs0 sp n).evalLog.length
          = n / vs := by
        rw [ihL, List.length_map, List.length_range]
      constructor
      · rw [hstep, hL, hlen, ihL, ihB, hdiv, List.range_succ, List.map_append]
        simp only [List.map_cons, List.map_nil]
        congr 3
      · rw [hstep, hB, hlen, ihB, hdiv]
        conv_rhs => rw [bestAfter]
    · have hmod : (n + 1) % vs ≠ 0 := fun hc => hd (Nat.dvd_of_mod_eq_zero hc)
      obtain ⟨hL, hB, _⟩ := trainStep_noval paramAt lossAt accAt evalAcc vs sp n
        (trainLoop paramAt lossAt accAt evalAcc vs 0 fs0 sp n) hmod
      have hdiv : (n + 1) / vs = n / vs := by
        rw [Nat.succ_div, if_neg hd, Nat.add_zero]
      exact ⟨by rw [hstep, hL, ihL, hdiv], by rw [hstep, hB, ihB, hdiv]⟩

lemma trainLoop_no_improvement {P : Type} (paramAt : ℕ → P)
    (lossAt accAt evalAcc : ℕ → ℚ) (vs s0 : ℕ) (fs0 : Fs P) (sp : String)
    (hA : ∀ k, evalAcc k ≤ 0) (n : ℕ) :
    (trainLoop paramAt lossAt accAt evalAcc vs s0 fs0 sp n).fs = fs0 ∧
    (trainLoop paramAt lossAt accAt evalAcc vs s0 fs0 sp n).bestAcc = 0 := by
  induction n with
  | zero => exact ⟨rfl, rfl⟩
  | succ n ih =>
    obtain ⟨ihF, ihB⟩ := ih
    have hstep : trainLoop paramAt lossAt accAt evalAcc vs s0 fs0 sp (n + 1)
        = trainStep paramAt lossAt accAt evalAcc vs sp (s0 + n)
            (trainLoop paramAt lossAt accAt evalAcc vs s0 fs0 sp n) := rfl
    by_cases hmod : (s0 + n + 1) % vs = 0
    · obtain ⟨_, hB, hF⟩ := trainStep_val paramAt lossAt accAt evalAcc vs sp (s0 + n)
        (trainLoop paramAt lossAt accAt evalAcc vs s0 fs0 sp n) hmod
      have hc : ¬ ((trainLoop paramAt lossAt accAt evalAcc vs s0 fs0 sp n).bestAcc
          < evalAcc (trainLoop paramAt lossAt accAt evalAcc vs s0 fs0 sp n).evalLog.length) := by
        rw [ihB]
        exact not_lt.mpr (hA _)
      rw [hstep, hF, hB, if_neg hc, if_neg hc]
      exact ⟨ihF, ihB⟩
    · obtain ⟨_, hB, hF⟩ := trainStep_noval paramAt lossAt accAt evalAcc vs sp (s0 + n)
        (trainLoop paramAt lossAt accAt evalAcc vs s0 fs0 sp n) hmod
      rw [hstep, hF, hB]
      exact ⟨ihF, ihB⟩

lemma trainLoop_accs {P : Type} (paramAt : ℕ → P) (lossAt accAt evalAcc : ℕ → ℚ)
    (vs : ℕ) (fs0 : Fs P) (sp : String) (n : ℕ) :
    (trainLoop paramAt lossAt accAt evalAcc vs 0 fs0 sp n).iterSample
        = (((n - 1) % vs : ℕ) : ℚ)
      ∧ (trainLoop paramAt lossAt accAt evalAcc vs 0 fs0 sp n).iterRight
        = ∑ j in Finset.Ico (n - (n - 1) % vs) n, accAt j
      ∧ (trainLoop paramAt lossAt accAt evalAcc vs 0 fs0 sp n).iterLoss
        = ∑ j in Finset.Ico (n - (n - 1) % vs) n, lossAt j := by
  induction n with
  | zero => refine ⟨?_, ?_, ?_⟩ <;> simp [trainLoop, initState]
  | succ n ih =>
    obtain ⟨ihS, ihR, ihL⟩ := ih
    have hstep : trainLoop paramAt lossAt accAt evalAcc vs 0 fs0 sp (n + 1)
        = trainStep paramAt lossAt accAt evalAcc vs sp n
            (trainLoop paramAt lossAt accAt evalAcc vs 0 fs0 sp n) := by
      simp only [trainLoop, Nat.zero_add]
    by_cases h0 : n % vs = 0
    · obtain ⟨hl, hr, hs⟩ := trainStep_accs_reset paramAt lossAt accAt evalAcc vs sp n
        (trainLoop paramAt lossAt accAt evalAcc vs 0 fs0 sp n) h0
      refine ⟨?_, ?_, ?_⟩ <;> rw [hstep]
      · rw [hs, Nat.add_sub_cancel, h0]
        simp
      · rw [hr, Nat.add_sub_cancel, h0, Nat.sub_zero, Finset.Ico_self, Finset.sum_empty]
      · rw [hl, Nat.add_sub_cancel, h0, Nat.sub_zero, Finset.Ico_self, Finset.sum_empty]
    · obtain ⟨hl, hr, hs⟩ := trainStep_accs_noreset paramAt lossAt accAt evalAcc vs sp n
        (trainLoop paramAt lossAt accAt evalAcc vs 0 fs0 sp n) h0
      have hm : n % vs = (n - 1) % vs + 1 := mod_pred vs n h0
      have hle : n - (n - 1) % vs ≤ n := Nat.sub_le _ _
      refine ⟨?_, ?_, ?_⟩ <;> rw [hstep]
      · rw [hs, ihS, Nat.add_sub_cancel, hm]
        push_cast
        ring
      · rw [hr, ihR, Nat.add_sub_cancel, hm, Nat.add_sub_add_right,
          Finset.sum_Ico_succ_top hle]
      · rw [hl, ihL, Nat.add_sub_cancel, hm, Nat.add_sub_add_right,
          Finset.sum_Ico_succ_top hle]

/-! ### Claim theorems -/

/-- C1: the checkpoint write of Framework.train (framework.py line 169) saves
a bundle containing only the `state_dict` key. Loading the written file back
via `__load_model__` succeeds and returns the saved parameter state
identically, but the bundle has no `iter` entry, so resuming from it
(line 126, `checkpoint[iter] + 1`) fails with a `KeyError` instead of
restoring the iteration index: the claimed `{state_dict, iter}` round-trip
does not hold of the code, although the code's own resume path requires it. -/
theorem checkpoint_save_omits_iter :
    loadModel (saveCheckpoint emptyFsN "./checkpoint/m.pth.tar" 42)
        "./checkpoint/m.pth.tar" = Except.ok (saveDict 42)
    ∧ (saveDict (42 : ℕ)).state_dict = some 42
    ∧ (saveDict (42 : ℕ)).iter = none
    ∧ trainStart (saveCheckpoint emptyFsN "./checkpoint/m.pth.tar" 42)
        (some "./checkpoint/m.pth.tar") = Except.error "KeyError: iter" := by
  refine ⟨?_, rfl, rfl, ?_⟩ <;> rfl

/-- C2 counterexample: in the scenario `train_iter = 10`, `val_step = 5`,
validation accuracies 0.6 then 0.8 from a fresh start, the code performs two
checkpoint writes (0.6 exceeds the initial best of 0, and 0.8 exceeds 0.6),
not exactly one as the claim states. -/
theorem scenario_not_exactly_one_write :
    writeCount scenarioRun = 2 ∧ writeCount scenarioRun ≠ 1 := by
  have h : scenarioRun.evalLog = [(4, 3/5, true), (9, 4/5, true)] := by
    rw [scenarioRun,
      (trainLoop_evalLog (fun _ => (0 : ℕ)) (fun _ => (0 : ℚ)) (fun _ => (0 : ℚ))
        (fun k => if k = 0 then (3/5 : ℚ) else 4/5) 5 emptyFsN "m" 10).1]
    norm_num [List.range_succ, bestAfter]
  rw [writeCount, writeFlags, h]
  norm_num

/-- C2 amended: in the scenario `train_iter = 10`, `val_step = 5`, validation
accuracies 0.6 then 0.8 from a fresh start, exactly two validation
evaluations occur, at iterations 4 and 9 (the fifth and tenth iterations),
and each of them writes a checkpoint. -/
theorem scenario_two_validations_two_writes :
    scenarioRun.evalLog = [(4, 3/5, true), (9, 4/5, true)] := by
  rw [scenarioRun,
    (trainLoop_evalLog (fun _ => (0 : ℕ)) (fun _ => (0 : ℚ)) (fun _ => (0 : ℚ))
      (fun k => if k = 0 then (3/5 : ℚ) else 4/5) 5 emptyFsN "m" 10).1]
  norm_num [List.range_succ, bestAfter]

/-- C3 counterexample: a run whose first validation evaluation returns
accuracy 0 writes no checkpoint, although the claim's condition (the returned
accuracy strictly exceeds every earlier observation, vacuously true at the
first evaluation) demands a write. -/
theorem first_eval_zero_no_write :
    writeFlags zeroAccRun = [false] ∧ writeFlags zeroAccRun ≠ [true] := by
  have h : zeroAccRun.evalLog = [(0, 0, false)] := by
    rw [zeroAccRun,
      (trainLoop_evalLog (fun _ => (0 : ℕ)) (fun _ => (0 : ℚ)) (fun _ => (0 : ℚ))
        (fun _ => (0 : ℚ)) 1 emptyFsN "m" 1).1]
    norm_num [List.range_succ, bestAfter]
  rw [writeFlags, h]
  norm_num

/-- C3 amended: in any fresh run of the training loop, the k-th validation
evaluation writes a checkpoint if and only if its accuracy strictly exceeds 0
(the initial best) and strictly exceeds every earlier validation accuracy of
the run. -/
theorem write_iff_strict_improvement {P : Type} (paramAt : ℕ → P)
    (lossAt accAt evalAcc : ℕ → ℚ) (vs : ℕ) (fs0 : Fs P) (sp : String)
    (n k : ℕ) (hk : k < n / vs) :
    ((trainLoop paramAt lossAt accAt evalAcc vs 0 fs0 sp n).evalLog[k]?
        = some ((k + 1) * vs - 1, evalAcc k, true))
      ↔ (0 < evalAcc k ∧ ∀ j < k, evalAcc j < evalAcc k) := by
  rw [(trainLoop_evalLog paramAt lossAt accAt evalAcc vs fs0 sp n).1,
    List.getElem?_map, List.getElem?_range hk]
  simp only [Option.map_some', Option.some.injEq, Prod.mk.injEq, true_and]
  rw [decide_eq_true_eq]
  exact bestAfter_lt_iff evalAcc k (evalAcc k)

/-- Witness for C3's amended theorem: with a single validation evaluation
returning accuracy one half, a checkpoint is written. -/
theorem write_iff_strict_improvement_witness :
    (trainLoop (fun _ => (0 : ℕ)) (fun _ => (0 : ℚ)) (fun _ => (0 : ℚ))
        (fun _ => (1/2 : ℚ)) 1 0 emptyFsN "m" 1).evalLog[0]?
      = some ((0 + 1) * 1 - 1, (1/2 : ℚ), true) :=
  (write_iff_strict_improvement (fun _ => (0 : ℕ)) (fun _ => (0 : ℚ))
      (fun _ => (0 : ℚ)) (fun _ => (1/2 : ℚ)) 1 emptyFsN "m" 1 0 (by decide)).mpr
    ⟨by norm_num, fun j hj => absurd hj (Nat.not_lt_zero j)⟩

/-- C4 counterexample: with `val_step = 2`, at the start of the second
validation window (after 2 iterations, i.e. just before iteration 2 runs) the
sample accumulator holds 1, not 0: the accumulators are not zero at the start
of each validation window, so windowed averages are not computed only from
that window's iterations. -/
theorem window_start_not_reset :
    offsetRun.iterSample = 1 ∧ offsetRun.iterSample ≠ 0 := by
  have h := (trainLoop_accs (fun _ => (0 : ℕ)) (fun _ => (0 : ℚ)) (fun _ => (0 : ℚ))
      (fun _ => (0 : ℚ)) 2 emptyFsN "m" 2).1
  rw [offsetRun]
  norm_num [h]

/-- C4 amended: in a fresh run, the accumulators are zeroed at iterations
`it` with `it % val_step = 0` only after that iteration's accumulation, so
after `n` iterations the sample counter equals `(n - 1) % val_step` and the
loss/accuracy accumulators hold exactly the forward results of iterations
`n - (n - 1) % val_step` up to `n - 1`; the average displayed at iteration `n`
therefore covers the iterations since the most recent reset, which at the
first iteration of a window (n divisible by val_step, n at least val_step)
includes the last `val_step - 1` iterations of the previous window. -/
theorem accumulator_reset_characterization {P : Type} (paramAt : ℕ → P)
    (lossAt accAt evalAcc : ℕ → ℚ) (vs : ℕ) (fs0 : Fs P) (sp : String) (n : ℕ) :
    (trainLoop paramAt lossAt accAt evalAcc vs 0 fs0 sp n).iterSample
        = (((n - 1) % vs : ℕ) : ℚ)
    ∧ (trainLoop paramAt lossAt accAt evalAcc vs 0 fs0 sp n).iterRight
        = ∑ j in Finset.Ico (n - (n - 1) % vs) n, accAt j
    ∧ (trainLoop paramAt lossAt accAt evalAcc vs 0 fs0 sp n).iterLoss
        = ∑ j in Finset.Ico (n - (n - 1) % vs) n, lossAt j
    ∧ displayedAcc paramAt lossAt accAt evalAcc vs 0 fs0 sp n
        = (∑ j in Finset.Ico (n - (n - 1) % vs) (n + 1), accAt j)
            / ((((n - 1) % vs : ℕ) : ℚ) + 1) := by
  obtain ⟨hS, hR, hL⟩ := trainLoop_accs paramAt lossAt accAt evalAcc vs fs0 sp n
  refine ⟨hS, hR, hL, ?_⟩
  have hle : n - (n - 1) % vs ≤ n := Nat.sub_le _ _
  rw [displayedAcc, hS, hR, Nat.zero_add, Finset.sum_Ico_succ_top hle]

/-- C5: Framework.train with a pretrained checkpoint whose dict holds a
parameter state and iteration index i restores that parameter state and
starts its loop at iteration i + 1; with no pretrained checkpoint the loop
starts at iteration 0; and the loop processes exactly the iterations
startIter, startIter + 1, ..., startIter + n - 1, in order. -/
theorem resume_starts_at_succ {P : Type} (fs fs2 : Fs P) (path : String)
    (ck : CkptDict P) (p : P) (i : ℕ) (paramAt : ℕ → P)
    (lossAt accAt evalAcc : ℕ → ℚ) (vs s0 : ℕ) (fs0 : Fs P) (sp : String) (n : ℕ)
    (hfs : fs path = some ck) (hsd : ck.state_dict = some p) (hit : ck.iter = some i) :
    trainStart fs (some path) = Except.ok (some p, i + 1)
    ∧ trainStart fs2 none = Except.ok (none, 0)
    ∧ (trainLoop paramAt lossAt accAt evalAcc vs s0 fs0 sp n).its
        = (List.range n).map (fun j => s0 + j) := by
  refine ⟨?_, rfl, trainLoop_its paramAt lossAt accAt evalAcc vs s0 fs0 sp n⟩
  simp [trainStart, loadModel, hfs, hsd, hit]

/-- Witness for C5: resuming from a checkpoint saved at iteration 3 loads
parameter state 7 and starts at iteration 4, a fresh start begins at 0, and a
3-iteration loop started at 4 processes iterations 4, 5, 6. -/
theorem resume_starts_at_succ_witness :
    trainStart fsResume (some "./checkpoint/m.pth.tar") = Except.ok (some 7, 3 + 1)
    ∧ trainStart emptyFsN none = Except.ok (none, 0)
    ∧ (trainLoop (fun _ => (0 : ℕ)) (fun _ => (0 : ℚ)) (fun _ => (0 : ℚ))
        (fun _ => (0 : ℚ)) 2 4 emptyFsN "m" 3).its
        = (List.range 3).map (fun j => 4 + j) :=
  resume_starts_at_succ fsResume emptyFsN "./checkpoint/m.pth.tar" ckResume 7 3
    (fun _ => (0 : ℕ)) (fun _ => (0 : ℚ)) (fun _ => (0 : ℚ)) (fun _ => (0 : ℚ))
    2 4 emptyFsN "m" 3 rfl rfl rfl

/-- C6: for a path with no file, Framework.eval with that path as ckpt fails
with the identifiable checkpoint-not-found error, independently of the
episode accuracies and the iteration count (so no evaluation iteration is
consumed and no accuracy is returned); the same load failure aborts
Framework.train when resuming from that path. -/
theorem missing_checkpoint_aborts {P : Type} (fs : Fs P) (path : String)
    (valAccs testAccs : ℕ → ℚ) (n : ℕ) (paramAt : ℕ → P)
    (lossAt accAt evalAcc testAccs2 : ℕ → ℚ) (vs ti tei : ℕ) (sp : String)
    (hfs : fs path = none) :
    Framework.eval fs valAccs testAccs n (some path)
      = Except.error ("No checkpoint found at " ++ path)
    ∧ Framework.train paramAt lossAt accAt evalAcc testAccs2 vs ti tei fs sp
        (some path)
      = Except.error ("No checkpoint found at " ++ path) := by
  constructor
  · simp [Framework.eval, loadModel, hfs]
  · simp [Framework.train, trainStart, loadModel, hfs]

/-- Witness for C6: evaluating or resuming against an empty filesystem fails
with the checkpoint-not-found error. -/
theorem missing_checkpoint_aborts_witness :
    Framework.eval emptyFsN (fun _ => 0) (fun _ => 0) 5 (some "missing.pth.tar")
      = Except.error ("No checkpoint found at " ++ "missing.pth.tar")
    ∧ Framework.train (fun _ => (0 : ℕ)) (fun _ => 0) (fun _ => 0) (fun _ => 0)
        (fun _ => 0) 1 2 1 emptyFsN "m" (some "missing.pth.tar")
      = Except.error ("No checkpoint found at " ++ "missing.pth.tar") :=
  missing_checkpoint_aborts emptyFsN "missing.pth.tar" (fun _ => 0) (fun _ => 0) 5
    (fun _ => (0 : ℕ)) (fun _ => 0) (fun _ => 0) (fun _ => 0) (fun _ => 0)
    1 2 1 "m" rfl

/-- C7: Framework.eval with ckpt = None draws from the validation loader with
the in-memory parameters and returns the arithmetic mean of the per-episode
validation accuracies; with a checkpoint path it loads that checkpoint's
parameter state and returns the mean of the per-episode test accuracies; both
means lie in the unit interval when every per-episode accuracy does. -/
theorem eval_loader_selection_and_mean {P : Type} (fs : Fs P)
    (valAccs testAccs : ℕ → ℚ) (n : ℕ) (path : String) (ck : CkptDict P) (p : P)
    (hn : 1 ≤ n)
    (hv : ∀ j < n, 0 ≤ valAccs j ∧ valAccs j ≤ 1)
    (ht : ∀ j < n, 0 ≤ testAccs j ∧ testAccs j ≤ 1)
    (hfs : fs path = some ck) (hsd : ck.state_dict = some p) :
    Framework.eval fs valAccs testAccs n none
      = Except.ok { loader := WhichLoader.valLoader, loadedParams := none,
                    acc := (∑ j in Finset.range n, valAccs j) / (n : ℚ) }
    ∧ Framework.eval fs valAccs testAccs n (some path)
      = Except.ok { loader := WhichLoader.testLoader, loadedParams := some p,
                    acc := (∑ j in Finset.range n, testAccs j) / (n : ℚ) }
    ∧ 0 ≤ (∑ j in Finset.range n, valAccs j) / (n : ℚ)
    ∧ (∑ j in Finset.range n, valAccs j) / (n : ℚ) ≤ 1
    ∧ 0 ≤ (∑ j in Finset.range n, testAccs j) / (n : ℚ)
    ∧ (∑ j in Finset.range n, testAccs j) / (n : ℚ) ≤ 1 := by
  have hne : ((n : ℚ)) ≠ 0 := by
    have h0 : (0 : ℚ) < (n : ℚ) := by exact_mod_cast hn
    exact ne_of_gt h0
  obtain ⟨hv0, hv1⟩ := mean_mem_unit valAccs n hn hv
  obtain ⟨ht0, ht1⟩ := mean_mem_unit testAccs n hn ht
  refine ⟨?_, ?_, hv0, hv1, ht0, ht1⟩
  · simp [Framework.eval, evalLoop, hne, evalRight_eq_sum]
  · simp [Framework.eval, evalLoop, loadModel, hfs, hsd, hne, evalRight_eq_sum]

/-- Witness for C7: two episodes with accuracies 0 and 1 on validation, one
half on test, against a checkpoint holding parameter state 5 at path t. -/
theorem eval_loader_selection_and_mean_witness :
    Framework.eval fsParamsOnly (fun j => if j = 0 then 0 else 1)
        (fun _ => (1/2 : ℚ)) 2 none
      = Except.ok { loader := WhichLoader.valLoader, loadedParams := none,
                    acc := (∑ j in Finset.range 2,
                        (fun j => if j = 0 then (0 : ℚ) else 1) j) / ((2 : ℕ) : ℚ) }
    ∧ Framework.eval fsParamsOnly (fun j => if j = 0 then 0 else 1)
        (fun _ => (1/2 : ℚ)) 2 (some "t")
      = Except.ok { loader := WhichLoader.testLoader, loadedParams := some 5,
                    acc := (∑ j in Finset.range 2,
                        (fun _ => (1/2 : ℚ)) j) / ((2 : ℕ) : ℚ) }
    ∧ 0 ≤ (∑ j in Finset.range 2, (fun j => if j = 0 then (0 : ℚ) else 1) j)
        / ((2 : ℕ) : ℚ)
    ∧ (∑ j in Finset.range 2, (fun j => if j = 0 then (0 : ℚ) else 1) j)
        / ((2 : ℕ) : ℚ) ≤ 1
    ∧ 0 ≤ (∑ j in Finset.range 2, (fun _ => (1/2 : ℚ)) j) / ((2 : ℕ) : ℚ)
    ∧ (∑ j in Finset.range 2, (fun _ => (1/2 : ℚ)) j) / ((2 : ℕ) : ℚ) ≤ 1 :=
  eval_loader_selection_and_mean fsParamsOnly (fun j => if j = 0 then 0 else 1)
    (fun _ => (1/2 : ℚ)) 2 "t" ckParamsOnly 5 (by norm_num)
    (by intro j hj; interval_cases j <;> norm_num)
    (by intro j hj; norm_num) rfl rfl

/-- C8: on equal-length nonempty prediction and label sequences, the default
accuracy computation returns the number of positions where prediction equals
label divided by the total length, a value in the unit interval. -/
theorem default_accuracy_fraction {α : Type} [DecidableEq α] (pred label : List α)
    (h1 : pred.length = label.length) (h2 : 0 < pred.length) :
    modelAccuracy pred label = ((matchCount pred label : ℕ) : ℚ) / ((pred.length : ℕ) : ℚ)
    ∧ 0 ≤ modelAccuracy pred label ∧ modelAccuracy pred label ≤ 1 := by
  have hzip : (pred.zip label).length = pred.length := by
    rw [List.length_zip, h1, min_self]
  have hmc : matchCount pred label ≤ pred.length := by
    rw [← hzip]
    exact List.length_filter_le _ _
  have hacc : modelAccuracy pred label
      = ((matchCount pred label : ℕ) : ℚ) / ((pred.length : ℕ) : ℚ) := by
    rw [modelAccuracy, indicator_sum, hzip, matchCount]
  have hp : (0 : ℚ) < ((pred.length : ℕ) : ℚ) := by exact_mod_cast h2
  refine ⟨hacc, ?_, ?_⟩
  · rw [hacc]
    exact div_nonneg (by positivity) (le_of_lt hp)
  · rw [hacc, div_le_one hp]
    exact_mod_cast hmc

/-- Witness for C8: predictions 1, 2, 3 against labels 1, 5, 3 match in two
of three positions. -/
theorem default_accuracy_fraction_witness :
    modelAccuracy [1, 2, 3] ([1, 5, 3] : List ℕ)
      = ((matchCount [1, 2, 3] ([1, 5, 3] : List ℕ) : ℕ) : ℚ)
          / ((([1, 2, 3] : List ℕ).length : ℕ) : ℚ)
    ∧ 0 ≤ modelAccuracy [1, 2, 3] ([1, 5, 3] : List ℕ)
    ∧ modelAccuracy [1, 2, 3] ([1, 5, 3] : List ℕ) ≤ 1 :=
  default_accuracy_fraction [1, 2, 3] [1, 5, 3] rfl (by norm_num)

/-- C9: after the loop, Framework.train loads the checkpoint at the standard
path for the final test evaluation; if every in-training validation accuracy
is at most 0 (so no write ever occurs) and no checkpoint pre-exists at that
path, train fails with the checkpoint-not-found error and produces no test
accuracy, even though the loop ran all its iterations and performed
train_iter / val_step validation evaluations. -/
theorem train_fails_without_any_checkpoint {P : Type} (paramAt : ℕ → P)
    (lossAt accAt evalAcc testAccs : ℕ → ℚ) (vs ti tei : ℕ) (fs0 : Fs P)
    (sp : String) (hA : ∀ k, evalAcc k ≤ 0) (hfs : fs0 sp = none) :
    Framework.train paramAt lossAt accAt evalAcc testAccs vs ti tei fs0 sp none
      = Except.error ("No checkpoint found at " ++ sp)
    ∧ (trainLoop paramAt lossAt accAt evalAcc vs 0 fs0 sp ti).evalLog.length
      = ti / vs := by
  have hfsc := (trainLoop_no_improvement paramAt lossAt accAt evalAcc vs 0 fs0 sp hA ti).1
  constructor
  · simp only [Framework.train, trainStart]
    rw [hfsc]
    simp [Framework.eval, loadModel, hfs]
  · rw [(trainLoop_evalLog paramAt lossAt accAt evalAcc vs fs0 sp ti).1,
      List.length_map, List.length_range]

/-- Witness for C9: two iterations with val_step 1 and all validation
accuracies 0 never write, so the final test evaluation aborts. -/
theorem train_fails_without_any_checkpoint_witness :
    Framework.train (fun _ => (0 : ℕ)) (fun _ => 0) (fun _ => 0) (fun _ => 0)
        (fun _ => 0) 1 2 1 emptyFsN "./checkpoint/m.pth.tar" none
      = Except.error ("No checkpoint found at " ++ "./checkpoint/m.pth.tar")
    ∧ (trainLoop (fun _ => (0 : ℕ)) (fun _ => 0) (fun _ => 0) (fun _ => 0) 1 0
        emptyFsN "./checkpoint/m.pth.tar" 2).evalLog.length = 2 / 1 :=
  train_fails_without_any_checkpoint (fun _ => (0 : ℕ)) (fun _ => 0) (fun _ => 0)
    (fun _ => 0) (fun _ => 0) 1 2 1 emptyFsN "./checkpoint/m.pth.tar"
    (fun _ => le_refl 0) rfl

/-- C10: Framework.eval returns an accuracy exactly when eval_iter is at
least 1; with eval_iter = 0 the loop body never runs, the sample counter
stays 0, and the final division iter_right / iter_sample fails with a
ZeroDivisionError instead of returning a value. -/
theorem eval_requires_positive_iterations {P : Type} (fs : Fs P)
    (valAccs testAccs : ℕ → ℚ) (n : ℕ) :
    Framework.eval fs valAccs testAccs 0 none
      = Except.error "ZeroDivisionError: float division by zero"
    ∧ ((∃ r, Framework.eval fs valAccs testAccs n none = Except.ok r) ↔ 1 ≤ n) := by
  constructor
  · rfl
  · cases n with
    | zero => simp [Framework.eval, evalLoop]
    | succ n =>
      have h : ((n : ℚ) + 1) ≠ 0 := by positivity
      simp [Framework.eval, evalLoop, h]
